import Mathlib

/- Verification of the CasparCG video-channel pipeline (core/video_channel.cpp):
   audio-cadence rotation, per-tick control flow, timecode listeners, route
   fan-out and the format-descriptor setter, as a shallow embedding. -/

namespace VideoChannel

/-- Model of core::video_format_desc restricted to the fields the channel reads:
frame rate as a rational, audio sample rate, the audio cadence vector and a name. -/
structure video_format_desc where
  name : String
  fps_num : Nat
  fps_den : Nat
  audio_sample_rate : Nat
  audio_cadence : List Nat
deriving DecidableEq, Repr

/-- Embedding of the per-tick cadence rotation
`boost::range::rotate(audio_cadence_, std::end(audio_cadence_) - 1)`:
std::rotate with middle = end - 1 yields the range [middle, end) followed by
[begin, middle), i.e. the last element becomes the first. -/
def rotate_cadence (l : List Nat) : List Nat :=
  l.drop (l.length - 1) ++ l.take (l.length - 1)

/-- Contents of the owned audio_cadence_ vector after k ticks of the channel loop
have each performed their rotation. -/
def cadence_after : Nat → List Nat → List Nat
  | 0, l => l
  | k + 1, l => rotate_cadence (cadence_after k l)

/-- Value `nb_samples = audio_cadence_.front()` read on tick k, ticks counted
from 1; the rotation of tick k happens before the front is read. -/
def nb_samples (k : Nat) (l : List Nat) : Nat :=
  (cadence_after k l).headD 0

/-- Sequence of nb_samples over the window of l.length consecutive ticks
t+1, ..., t+l.length. -/
def nb_samples_window (t : Nat) (l : List Nat) : List Nat :=
  (List.range l.length).map (fun j => nb_samples (t + 1 + j) l)

lemma rotate_cadence_eq_rotate (l : List Nat) :
    rotate_cadence l = l.rotate (l.length - 1) :=
  (List.rotate_eq_drop_append_take (Nat.sub_le _ _)).symm

lemma rotate_cadence_last (xs : List Nat) (x : Nat) :
    rotate_cadence (xs ++ [x]) = x :: xs := by
  simp [rotate_cadence, List.length_append]

lemma cadence_after_eq_rotate (k : Nat) (l : List Nat) :
    cadence_after k l = l.rotate (k * (l.length - 1)) := by
  induction k with
  | zero => simp [cadence_after]
  | succ k ih =>
      rw [cadence_after, ih, rotate_cadence_eq_rotate, List.length_rotate,
        List.rotate_rotate]
      congr 1
      ring

lemma length_cadence_after (k : Nat) (l : List Nat) :
    (cadence_after k l).length = l.length := by
  rw [cadence_after_eq_rotate, List.length_rotate]

lemma headD_eq_getElem (m : List Nat) (h : 0 < m.length) : m.headD 0 = m[0] := by
  cases m with
  | nil => simp at h
  | cons a t => rfl

lemma key_mod_identity (j L : Nat) (h : j < L) :
    (j + 1) * (L - 1) % L = L - 1 - j := by
  obtain ⟨M, rfl⟩ : ∃ M, L = M + 1 := ⟨L - 1, by omega⟩
  simp only [Nat.add_sub_cancel]
  have h1 : (j + 1) * M = (M - j) + j * (M + 1) := by
    have h2 : (j + 1) * M = j * M + M := by ring
    have h3 : j * (M + 1) = j * M + j := by ring
    omega
  rw [h1, Nat.add_mul_mod_self_right, Nat.mod_eq_of_lt (by omega)]

lemma nb_samples_window_eq_reverse (t : Nat) (l : List Nat) :
    nb_samples_window t l = (cadence_after t l).reverse := by
  rw [cadence_after_eq_rotate]
  apply List.ext_getElem
  · simp [nb_samples_window]
  · intro j h1 h2
    have hL : j < l.length := by
      simpa [nb_samples_window] using h1
    have hLpos : 0 < l.length := Nat.lt_of_le_of_lt (Nat.zero_le j) hL
    have hwin : (nb_samples_window t l)[j] = nb_samples (t + 1 + j) l := by
      simp [nb_samples_window]
    rw [hwin]
    unfold nb_samples
    rw [cadence_after_eq_rotate,
      headD_eq_getElem (l.rotate ((t + 1 + j) * (l.length - 1)))
        (by rw [List.length_rotate]; exact hLpos)]
    rw [List.getElem_rotate, List.getElem_reverse]
    simp only [List.length_rotate]
    rw [List.getElem_rotate]
    have hm1 : ((j + 1) * (l.length - 1)) % l.length =
        (l.length - 1 - j) % l.length := by
      rw [key_mod_identity j l.length hL, Nat.mod_eq_of_lt (by omega)]
    have harith : (0 + (t + 1 + j) * (l.length - 1)) % l.length =
        ((l.length - 1 - j) + t * (l.length - 1)) % l.length := by
      have hsplit : (t + 1 + j) * (l.length - 1) =
          t * (l.length - 1) + (j + 1) * (l.length - 1) := by ring
      rw [Nat.zero_add, hsplit, Nat.add_mod, hm1, ← Nat.add_mod,
        Nat.add_comm (t * (l.length - 1)) (l.length - 1 - j)]
    simp only [harith]

lemma cadence_after_perm (t : Nat) (l : List Nat) :
    (cadence_after t l).Perm l := by
  rw [cadence_after_eq_rotate]
  exact List.rotate_perm l _

lemma nb_samples_window_perm (t : Nat) (l : List Nat) :
    (nb_samples_window t l).Perm l := by
  rw [nb_samples_window_eq_reverse]
  exact ((cadence_after t l).reverse_perm).trans (cadence_after_perm t l)

/-- C1: on every tick the channel rotates its owned audio_cadence vector so that
the last element becomes the first and reads the new front as nb_samples for the
tick; hence over any window of l.length consecutive ticks every element of the
cadence is used exactly once and the nb_samples values sum to the cadence sum;
for the NTSC cadence [1602, 1601, 1602, 1601, 1602] the five ticks starting at
the beginning use samples summing to 8008. -/
theorem C1_cadence_rotation_and_window (l : List Nat) (t : Nat) :
    (∀ xs x, rotate_cadence (xs ++ [x]) = x :: xs) ∧
    (∀ k, nb_samples (k + 1) l = (rotate_cadence (cadence_after k l)).headD 0) ∧
    (nb_samples_window t l).Perm l ∧
    (nb_samples_window t l).sum = l.sum ∧
    nb_samples_window 0 [1602, 1601, 1602, 1601, 1602] =
      [1602, 1601, 1602, 1601, 1602] ∧
    (nb_samples_window 0 [1602, 1601, 1602, 1601, 1602]).sum = 8008 := by
  refine ⟨rotate_cadence_last, fun k => rfl, nb_samples_window_perm t l,
    (nb_samples_window_perm t l).sum_eq, by decide, by decide⟩

/-- Model of core::frame_timecode restricted to its frame counter. -/
structure frame_timecode where
  frames : Nat
deriving DecidableEq, Repr

/-- Model of the timecode listener registry: the unordered map
timecode_listeners_ as its list of entries in iteration order, together with
last_timecode_listener_id. std::unordered_map leaves the iteration order
unspecified, so the model keeps the entry list abstract and lets insertion
place the new entry at an arbitrary position. -/
structure listener_table (α : Type) where
  entries : List (Int × α)
  last_timecode_listener_id : Int

/-- Fresh listener registry of a fresh channel: empty map, id counter 0. -/
def empty_listener_table {α : Type} : listener_table α :=
  ⟨[], 0⟩

/-- List insertion at a clamped position; used to model that the unordered map
stores the new entry at an implementation-chosen place in iteration order. -/
def insert_at {β : Type} : Nat → β → List β → List β
  | _, e, [] => [e]
  | 0, e, l => e :: l
  | n + 1, e, x :: l => x :: insert_at n e l

/-- Embedding of add_timecode_listener: the new id is the value of
last_timecode_listener_id before its post-increment; the entry is inserted into
the unordered map at an unspecified position pos of the iteration order.
Returns the id (the token erases it when dropped) and the new table. -/
def add_timecode_listener {α : Type} (pos : Nat) (listener : α)
    (t : listener_table α) : Int × listener_table α :=
  (t.last_timecode_listener_id,
    ⟨insert_at pos (t.last_timecode_listener_id, listener) t.entries,
      t.last_timecode_listener_id + 1⟩)

/-- Embedding of the deleter of the returned token:
timecode_listeners_.erase(listener_id) under the lock. -/
def remove_timecode_listener {α : Type} (id : Int) (t : listener_table α) :
    listener_table α :=
  ⟨t.entries.filter (fun e => e.1 != id), t.last_timecode_listener_id⟩

/-- Embedding of invoke_timecode_listeners: the map is copied under its lock,
then every listener of that copy is invoked with the committed timecode, a
per-listener catch swallowing any exception, so the loop always continues to
the next listener. The result is the invocation log: for each entry its id, the
timecode it was invoked with and whether the invocation succeeded. -/
def invoke_timecode_listeners {α : Type} (snapshot : List (Int × α))
    (call : α → frame_timecode → Except Unit Unit) (tc : frame_timecode) :
    List (Int × frame_timecode × Bool) :=
  snapshot.map (fun e => (e.1, tc, (call e.2 tc).isOk))

/-- Sequence of add_timecode_listener calls at given insertion positions. -/
def add_many {α : Type} (ps : List (Nat × α)) (t : listener_table α) :
    listener_table α :=
  ps.foldl (fun t p => (add_timecode_listener p.1 p.2 t).2) t

/-- Sequence of add_timecode_listener calls, also returning the assigned ids in
chronological order. -/
def add_many_log {α : Type} : List (Nat × α) → listener_table α →
    List Int × listener_table α
  | [], t => ([], t)
  | p :: ps, t =>
      let r := add_timecode_listener p.1 p.2 t
      let rest := add_many_log ps r.2
      (r.1 :: rest.1, rest.2)

lemma insert_at_perm {β : Type} :
    ∀ (n : Nat) (e : β) (l : List β), (insert_at n e l).Perm (e :: l)
  | n, e, [] => by cases n <;> simp [insert_at]
  | 0, e, x :: l => by simp [insert_at]
  | n + 1, e, x :: l => by
      rw [insert_at]
      exact ((insert_at_perm n e l).cons x).trans (List.Perm.swap e x l)

lemma range_map_shift (c : Int) (n : Nat) :
    (List.range (n + 1)).map (fun (i : Nat) => c + (i : Int)) =
      c :: (List.range n).map (fun (i : Nat) => (c + 1) + (i : Int)) := by
  rw [List.range_succ_eq_map, List.map_cons, List.map_map]
  congr 1
  · simp
  · apply List.map_congr_left
    intro a _
    simp only [Function.comp_apply]
    push_cast
    ring

lemma add_many_ids_perm {α : Type} (ps : List (Nat × α)) :
    ∀ (t : listener_table α),
      ((add_many ps t).entries.map (fun e => e.1)).Perm
        (((List.range ps.length).map
            (fun (i : Nat) => t.last_timecode_listener_id + (i : Int))) ++
          t.entries.map (fun e => e.1)) ∧
      (add_many ps t).last_timecode_listener_id =
        t.last_timecode_listener_id + ps.length := by
  induction ps with
  | nil => intro t; simp [add_many]
  | cons p ps ih =>
      intro t
      have hstep : add_many (p :: ps) t =
          add_many ps (add_timecode_listener p.1 p.2 t).2 := rfl
      obtain ⟨hperm, hnext⟩ := ih (add_timecode_listener p.1 p.2 t).2
      constructor
      · rw [hstep]
        refine hperm.trans ?_
        have hins : (((add_timecode_listener p.1 p.2 t).2.entries.map
            (fun e => e.1))).Perm
              (t.last_timecode_listener_id :: t.entries.map (fun e => e.1)) := by
          simpa using (insert_at_perm p.1
            (t.last_timecode_listener_id, p.2) t.entries).map (fun e => e.1)
        refine ((List.Perm.append_left _ hins).trans ?_)
        refine List.perm_middle.trans ?_
        rw [List.length_cons, range_map_shift]
        rfl
      · rw [hstep, hnext]
        simp [add_timecode_listener, List.length_cons]
        omega

lemma add_many_log_spec {α : Type} (ps : List (Nat × α)) :
    ∀ (t : listener_table α),
      (add_many_log ps t).1 =
        (List.range ps.length).map
          (fun (i : Nat) => t.last_timecode_listener_id + (i : Int)) ∧
      (add_many_log ps t).2 = add_many ps t := by
  induction ps with
  | nil => intro t; simp [add_many_log, add_many]
  | cons p ps ih =>
      intro t
      obtain ⟨h1, h2⟩ := ih (add_timecode_listener p.1 p.2 t).2
      constructor
      · show (add_timecode_listener p.1 p.2 t).1 :: (add_many_log ps _).1 = _
        rw [h1, List.length_cons, range_map_shift]
        rfl
      · show (add_many_log ps _).2 = _
        rw [h2]
        rfl

/-- C7: the per-listener catch swallows a throwing listener, every other
listener of the snapshot of that tick is still invoked, each entry of the
snapshot is invoked exactly once and with the just-committed timecode, whatever
the listeners do. -/
theorem C7_listener_failures_swallowed {α : Type} (snapshot : List (Int × α))
    (call : α → frame_timecode → Except Unit Unit) (tc : frame_timecode) :
    ((invoke_timecode_listeners snapshot call tc).map (fun r => r.1) =
        snapshot.map (fun e => e.1)) ∧
    ((invoke_timecode_listeners snapshot call tc).length = snapshot.length) ∧
    (∀ r ∈ invoke_timecode_listeners snapshot call tc, r.2.1 = tc) ∧
    (∀ id, ((invoke_timecode_listeners snapshot call tc).map
        (fun r => r.1)).count id = (snapshot.map (fun e => e.1)).count id) := by
  have hmap : (invoke_timecode_listeners snapshot call tc).map (fun r => r.1) =
      snapshot.map (fun e => e.1) := by
    simp [invoke_timecode_listeners, List.map_map, Function.comp]
  refine ⟨hmap, ?_, ?_, fun id => by rw [hmap]⟩
  · simp [invoke_timecode_listeners]
  · intro r hr
    simp only [invoke_timecode_listeners, List.mem_map] at hr
    obtain ⟨e, _, rfl⟩ := hr
    rfl

/-- Listener that always succeeds; used for concrete instances. -/
def unit_listener_call : Unit → frame_timecode → Except Unit Unit :=
  fun _ _ => Except.ok ()

/-- Registry after registering two listeners when the unordered map places each
new entry at the front of the iteration order, as the common singly-linked
bucket implementations of std::unordered_map do for fresh buckets. -/
def two_listener_table : listener_table Unit :=
  (add_timecode_listener 0 () (add_timecode_listener 0 () empty_listener_table).2).2

/-- C2 counterexample: ids 0 and 1 are both registered, yet under an admissible
iteration order of the unordered map the invocation order of a tick is [1, 0]:
the listener with the smaller id is not called first, so ascending-id
invocation order does not hold. -/
theorem C2_counterexample_descending_invocation :
    ((two_listener_table.entries.map (fun e => e.1)).Perm [0, 1]) ∧
    ((invoke_timecode_listeners two_listener_table.entries unit_listener_call
        ⟨0⟩).map (fun r => r.1) = [1, 0]) ∧
    ¬ (((invoke_timecode_listeners two_listener_table.entries unit_listener_call
        ⟨0⟩).map (fun r => r.1)).Pairwise (fun a b => a < b)) := by
  have h0 : (invoke_timecode_listeners two_listener_table.entries
      unit_listener_call ⟨0⟩).map (fun r => r.1) = [1, 0] := rfl
  refine ⟨by decide, h0, ?_⟩
  rw [h0]
  decide

/-- C2 amended: every listener of the snapshot is invoked exactly once, in the
iteration order of the snapshotted unordered map; registration assigns the ids
0, 1, 2, ...; but the iteration order of std::unordered_map is unspecified, so
no ascending-id invocation order is guaranteed. -/
theorem C2_listener_invocation_order_amended {α : Type}
    (snapshot : List (Int × α)) (call : α → frame_timecode → Except Unit Unit)
    (tc : frame_timecode) (ps : List (Nat × α)) :
    ((invoke_timecode_listeners snapshot call tc).map (fun r => r.1) =
      snapshot.map (fun e => e.1)) ∧
    (((add_many ps empty_listener_table).entries.map (fun e => e.1)).Perm
      ((List.range ps.length).map (fun (i : Nat) => (i : Int)))) := by
  constructor
  · simp [invoke_timecode_listeners, List.map_map, Function.comp]
  · have h := (add_many_ids_perm ps empty_listener_table).1
    simpa [empty_listener_table] using h

/-- C9: the ids assigned by successive add_timecode_listener calls are strictly
increasing in chronological order (each new id exceeds every previously
assigned one), the registered ids are pairwise distinct, and dropping the token
of id idx erases exactly the entry with that id, leaving the other entries
unchanged and in their iteration order. -/
theorem C9_listener_id_fresh_and_token_erase {α : Type} (ps : List (Nat × α))
    (idx : Int) :
    ((add_many_log ps empty_listener_table).1.Pairwise (fun a b => a < b)) ∧
    (((add_many ps empty_listener_table).entries.map (fun e => e.1)).Nodup) ∧
    (∀ e, e ∈ (remove_timecode_listener idx
        (add_many ps empty_listener_table)).entries ↔
      (e ∈ (add_many ps empty_listener_table).entries ∧ e.1 ≠ idx)) ∧
    ((remove_timecode_listener idx
        (add_many ps empty_listener_table)).entries.Sublist
      (add_many ps empty_listener_table).entries) := by
  have hlog := (add_many_log_spec ps empty_listener_table).1
  have hids := (add_many_ids_perm ps empty_listener_table).1
  have hrange : (((List.range ps.length).map
      (fun (i : Nat) => (i : Int)))).Nodup :=
    (List.nodup_range ps.length).map (fun a b => by exact_mod_cast id)
  refine ⟨?_, ?_, ?_, ?_⟩
  · rw [hlog]
    refine List.Pairwise.map _ ?_ (List.pairwise_lt_range ps.length)
    intro a b hab
    simp only [empty_listener_table]
    omega
  · have hperm : (((add_many ps empty_listener_table).entries.map
        (fun e => e.1))).Perm
          ((List.range ps.length).map (fun (i : Nat) => (i : Int))) := by
      simpa [empty_listener_table] using hids
    exact hperm.symm.nodup hrange
  · intro e
    simp [remove_timecode_listener, List.mem_filter]
  · exact List.filter_sublist _

/-- Model of core::draw_frame as an opaque payload tree: a producer frame, the
non-retaining popped variant draw_frame::pop(f), or the composite
draw_frame(std::vector<draw_frame>). -/
inductive draw_frame where
  | atom : Nat → draw_frame
  | pop : draw_frame → draw_frame
  | composite : List draw_frame → draw_frame

/-- Model of core::route: an identity for the shared object plus the fields
that impl::route fills in. -/
structure route where
  id : Nat
  format_desc : video_format_desc
  name : String
deriving DecidableEq, Repr

/-- Embedding of the route fan-out block of the tick, run under routes_mutex_:
walk the producer frame map in iteration order, collect every frame into the
frames vector, and signal the alive route of each layer with the popped variant
of its frame; afterwards signal the alive channel-wide route (key -1) with the
composite of all collected frames. A key maps to none when routes_ has no entry
or the weak reference no longer upgrades; both are silently skipped. The result
is the list of (route, frame) signals in emission order. -/
def dispatch_routes (routes : Int → Option route)
    (stage_frames : List (Int × draw_frame)) : List (route × draw_frame) :=
  let step := stage_frames.foldl
    (fun (acc : List draw_frame × List (route × draw_frame)) p =>
      (acc.1 ++ [p.2],
        match routes p.1 with
        | some r => acc.2 ++ [(r, draw_frame.pop p.2)]
        | none => acc.2))
    ([], [])
  match routes (-1) with
  | some r => step.2 ++ [(r, draw_frame.composite step.1)]
  | none => step.2

/-- Statement of the claimed fan-out behaviour, written from the words of the
spec: one popped signal per produced layer whose route is alive, then one
composite signal over all produced frames for the alive channel route. -/
def route_signals_spec (routes : Int → Option route)
    (stage_frames : List (Int × draw_frame)) : List (route × draw_frame) :=
  stage_frames.filterMap
    (fun p => (routes p.1).map (fun r => (r, draw_frame.pop p.2))) ++
  (match routes (-1) with
    | some r => [(r, draw_frame.composite (stage_frames.map (fun p => p.2)))]
    | none => [])

lemma dispatch_routes_foldl (routes : Int → Option route) :
    ∀ (sf : List (Int × draw_frame))
      (acc : List draw_frame × List (route × draw_frame)),
      sf.foldl
        (fun (acc : List draw_frame × List (route × draw_frame)) p =>
          (acc.1 ++ [p.2],
            match routes p.1 with
            | some r => acc.2 ++ [(r, draw_frame.pop p.2)]
            | none => acc.2)) acc =
      (acc.1 ++ sf.map (fun p => p.2),
        acc.2 ++ sf.filterMap
          (fun p => (routes p.1).map (fun r => (r, draw_frame.pop p.2))))
  | [], acc => by simp
  | p :: sf, acc => by
      rw [List.foldl_cons, dispatch_routes_foldl routes sf]
      cases h : routes p.1 with
      | none => simp [h, List.filterMap_cons]
      | some r => simp [h, List.filterMap_cons]

/-- Concrete format descriptor used by the concrete scenarios. -/
def test_format : video_format_desc :=
  ⟨"PAL", 25, 1, 48000, [1920]⟩

/-- Concrete route table of scenario S4: a route for layer 0 and the
channel-wide route -1, nothing else alive. -/
def example_routes : Int → Option route := fun i =>
  if i = 0 then some ⟨0, test_format, "1/0"⟩
  else if i = -1 then some ⟨1, test_format, "1"⟩
  else none

/-- C5: the route fan-out signals, in order, exactly one popped signal per
produced layer whose route is alive (layers with no alive route are skipped
silently), followed by one composite signal over all produced frames in
iteration order for the alive channel route; in scenario S4 with producer map
[(0, A), (1, B)] and routes for 0 and -1, route 0 receives pop(A), route -1
receives composite [A, B], and no signal is emitted for layer 1. -/
theorem C5_route_fanout (routes : Int → Option route)
    (stage_frames : List (Int × draw_frame)) :
    dispatch_routes routes stage_frames =
      route_signals_spec routes stage_frames ∧
    dispatch_routes example_routes
        [(0, draw_frame.atom 0), (1, draw_frame.atom 1)] =
      [(⟨0, test_format, "1/0"⟩, draw_frame.pop (draw_frame.atom 0)),
        (⟨1, test_format, "1"⟩,
          draw_frame.composite [draw_frame.atom 0, draw_frame.atom 1])] := by
  constructor
  · rw [dispatch_routes, route_signals_spec, dispatch_routes_foldl]
    cases h : routes (-1) with
    | none => simp
    | some r => simp
  · rfl

/-- Model of the routes side of the channel state: the weak route map routes_
(a key maps to none when absent or expired), a counter modelling allocation of
fresh shared route objects, and the fields route() copies into a new route. -/
structure routes_state where
  routes_ : Int → Option route
  next_route_id : Nat
  format_desc_ : video_format_desc
  index_ : Int

/-- Embedding of video_channel::impl::route(index): under routes_mutex_,
upgrade the weak entry routes_[index]; if it is alive return it; otherwise
create a fresh route, set its format_desc and its name (the channel index,
plus a slash and the layer index when index is not -1), store it under the key
and return it by strong reference. -/
def route_op (s : routes_state) (index : Int) : route × routes_state :=
  match s.routes_ index with
  | some r => (r, s)
  | none =>
      let r : route :=
        { id := s.next_route_id
          format_desc := s.format_desc_
          name := if index = -1 then toString s.index_
            else toString s.index_ ++ "/" ++ toString index }
      (r,
        { s with
          routes_ := fun i => if i = index then some r else s.routes_ i
          next_route_id := s.next_route_id + 1 })

/-- C8: route(index) is idempotent with respect to live routes: when the weak
entry upgrades the same route object is returned and the state is unchanged;
when it does not, a fresh route is created, stored under the key, and returned,
so a second call while the first result is held returns that same route. -/
theorem C8_route_idempotent (s : routes_state) (index : Int) :
    (∀ r, s.routes_ index = some r → route_op s index = (r, s)) ∧
    (s.routes_ index = none →
      (route_op s index).2.routes_ index = some (route_op s index).1 ∧
      route_op (route_op s index).2 index =
        ((route_op s index).1, (route_op s index).2)) ∧
    (route_op (route_op s index).2 index).1 = (route_op s index).1 := by
  refine ⟨?_, ?_, ?_⟩
  · intro r h
    simp [route_op, h]
  · intro h
    simp [route_op, h]
  · cases h : s.routes_ index with
    | some r => simp [route_op, h]
    | none => simp [route_op, h]

/-- Concrete routes state with no alive route. -/
def test_routes_state : routes_state :=
  ⟨fun _ => none, 0, test_format, 1⟩

/-- Witness for C8: at the empty concrete state, creating the route for layer 0
stores it and a repeated call returns the same route; at the state after
creation, the alive entry is returned unchanged. -/
theorem C8_route_idempotent_witness :
    ((route_op test_routes_state 0).2.routes_ 0 =
        some (route_op test_routes_state 0).1 ∧
      route_op (route_op test_routes_state 0).2 0 =
        ((route_op test_routes_state 0).1, (route_op test_routes_state 0).2)) ∧
    route_op (route_op test_routes_state 0).2 0 =
      ((route_op test_routes_state 0).1, (route_op test_routes_state 0).2) :=
  ⟨(C8_route_idempotent test_routes_state 0).2.1 rfl,
    (C8_route_idempotent (route_op test_routes_state 0).2 0).1
      (route_op test_routes_state 0).1 rfl⟩

/-- Model of core::channel_timecode restricted to what the covered code drives
through it: the format it currently scales against; change_format stores the
new format. -/
structure channel_timecode where
  format : video_format_desc
deriving DecidableEq, Repr

/-- Embedding of channel_timecode::change_format. -/
def change_format (tc : channel_timecode) (fd : video_format_desc) :
    channel_timecode :=
  { tc with format := fd }

/-- Model of core::stage restricted to its set of layers; clear() removes all
of them. -/
structure stage_t where
  layers : List Int
deriving DecidableEq, Repr

/-- Embedding of stage::clear. -/
def stage_clear (s : stage_t) : stage_t :=
  { s with layers := [] }

/-- State of video_channel::impl read and written by the format setter and by
the head of the tick body: format_desc_, the owned audio_cadence_ vector, the
timecode object and the stage. -/
structure channel_state where
  format_desc_ : video_format_desc
  audio_cadence_ : List Nat
  timecode_ : channel_timecode
  stage_ : stage_t
deriving DecidableEq, Repr

/-- Embedding of the impl constructor initializers relevant here:
format_desc_(format_desc), audio_cadence_ = format_desc_.audio_cadence, the
timecode built over the same format, a stage with no layers. -/
def impl_init (fd : video_format_desc) : channel_state :=
  ⟨fd, fd.audio_cadence, ⟨fd⟩, ⟨[]⟩⟩

/-- Embedding of the setter void video_format_desc(format_desc): under
format_desc_mutex_ it assigns format_desc_, replaces audio_cadence_ with the
cadence of the new format, applies timecode_->change_format and clears the
stage. -/
def set_video_format_desc (s : channel_state) (fd : video_format_desc) :
    channel_state :=
  { s with
    format_desc_ := fd
    audio_cadence_ := fd.audio_cadence
    timecode_ := change_format s.timecode_ fd
    stage_ := stage_clear s.stage_ }

/-- Embedding of the head of the tick body under format_desc_mutex_: copy
format_desc_, rotate audio_cadence_ in place, read the new front as
nb_samples. Returns the snapshot, nb_samples, and the updated state. -/
def tick_format_snapshot (s : channel_state) :
    video_format_desc × Nat × channel_state :=
  let cad := rotate_cadence s.audio_cadence_
  (s.format_desc_, cad.headD 0, { s with audio_cadence_ := cad })

/-- Sample count handed to the mixer on a tick:
mixer_(stage_frames, format_desc, format_desc.audio_cadence[0]) reads element
0 of the tick snapshot of format_desc_, never the rotated owned vector. -/
def mixer_nb_samples (format_desc : video_format_desc) : Nat :=
  format_desc.audio_cadence.headD 0

/-- Channel state after n ticks have executed their format/cadence snapshot,
starting from s, with no format change in between. -/
def state_after_ticks (s : channel_state) : Nat → channel_state
  | 0 => s
  | n + 1 => (tick_format_snapshot (state_after_ticks s n)).2.2

/-- Sample-count arguments of tick n (0-indexed): the nb_samples handed to the
stage and the count handed to the mixer. -/
def tick_sample_args (s : channel_state) (n : Nat) : Nat × Nat :=
  let r := tick_format_snapshot (state_after_ticks s n)
  (r.2.1, mixer_nb_samples r.1)

lemma state_after_ticks_fields (fd : video_format_desc) (n : Nat) :
    (state_after_ticks (impl_init fd) n).format_desc_ = fd ∧
    (state_after_ticks (impl_init fd) n).audio_cadence_ =
      cadence_after n fd.audio_cadence := by
  induction n with
  | zero => exact ⟨rfl, rfl⟩
  | succ n ih =>
      obtain ⟨h1, h2⟩ := ih
      constructor
      · show (tick_format_snapshot _).2.2.format_desc_ = fd
        rw [tick_format_snapshot]
        exact h1
      · show (tick_format_snapshot _).2.2.audio_cadence_ = _
        rw [tick_format_snapshot, cadence_after]
        simp only [h2]

/-- The NTSC format of scenario S2. -/
def test_ntsc : video_format_desc :=
  ⟨"NTSC", 30000, 1001, 48000, [1602, 1601, 1602, 1601, 1602]⟩

/-- C6: after the setter returns, the stored format equals the new one, the
owned cadence vector has been replaced by the cadence of the new format, the
timecode has had change_format applied and the stage has been cleared, so the
next tick snapshots the new format over a stage with no residual layers. -/
theorem C6_format_change_quiescence (s : channel_state)
    (fd : video_format_desc) :
    (set_video_format_desc s fd).format_desc_ = fd ∧
    (set_video_format_desc s fd).audio_cadence_ = fd.audio_cadence ∧
    (set_video_format_desc s fd).timecode_ = change_format s.timecode_ fd ∧
    (set_video_format_desc s fd).stage_.layers = [] ∧
    (tick_format_snapshot (set_video_format_desc s fd)).1 = fd ∧
    (tick_format_snapshot (set_video_format_desc s fd)).2.1 =
      (rotate_cadence fd.audio_cadence).headD 0 :=
  ⟨rfl, rfl, rfl, rfl, rfl, rfl⟩

/-- C10: on every tick the mixer receives the never-rotated first element of
the snapshotted format cadence while the stage receives the front of the
rotated owned vector, so whenever the rotated front of a tick differs from the
original first element the two collaborators receive different sample counts
on that tick; concretely, on the second NTSC tick the stage receives 1601 but
the mixer receives 1602. -/
theorem C10_mixer_stage_cadence_divergence (fd : video_format_desc) (n : Nat) :
    (tick_sample_args (impl_init fd) n).2 = fd.audio_cadence.headD 0 ∧
    (tick_sample_args (impl_init fd) n).1 = nb_samples (n + 1) fd.audio_cadence ∧
    (nb_samples (n + 1) fd.audio_cadence ≠ fd.audio_cadence.headD 0 →
      (tick_sample_args (impl_init fd) n).1 ≠
        (tick_sample_args (impl_init fd) n).2) ∧
    (tick_sample_args (impl_init test_ntsc) 1).1 = 1601 ∧
    (tick_sample_args (impl_init test_ntsc) 1).2 = 1602 := by
  obtain ⟨h1, h2⟩ := state_after_ticks_fields fd n
  have hm : (tick_sample_args (impl_init fd) n).2 = fd.audio_cadence.headD 0 := by
    rw [tick_sample_args, tick_format_snapshot, mixer_nb_samples, h1]
  have hs : (tick_sample_args (impl_init fd) n).1 =
      nb_samples (n + 1) fd.audio_cadence := by
    rw [tick_sample_args, tick_format_snapshot, nb_samples, cadence_after, h2]
  refine ⟨hm, hs, ?_, by decide, by decide⟩
  intro hne
  rw [hs, hm]
  exact hne

/-- Witness for C10: on the second NTSC tick the rotated front 1601 differs
from the first cadence element 1602, and the stage and mixer sample counts of
that tick indeed differ. -/
theorem C10_mixer_stage_cadence_divergence_witness :
    nb_samples 2 test_ntsc.audio_cadence ≠ test_ntsc.audio_cadence.headD 0 ∧
    (tick_sample_args (impl_init test_ntsc) 1).1 ≠
      (tick_sample_args (impl_init test_ntsc) 1).2 :=
  ⟨by decide,
    (C10_mixer_stage_cadence_divergence test_ntsc 1).2.2.1 (by decide)⟩

/-- Events of the tick body, one per statement group of the try block, recorded
when the corresponding operation completes. -/
inductive tick_event where
  | rotate_cadence_ev
  | clear_state_ev
  | predict_timecode_ev
  | produce_ev
  | stage_state_ev
  | commit_timecode_ev
  | invoke_listeners_ev
  | mix_ev
  | mixer_state_ev
  | consume_ev
  | dispatch_routes_ev
  | output_state_ev
  | publish_state_ev
deriving DecidableEq, Repr

/-- Failure behaviour of the collaborators called by one tick: which of the
stage call, the mixer, the output, a route signal and the published tick
callback throws. -/
structure tick_behavior where
  produce_throws : Bool
  mix_throws : Bool
  consume_throws : Bool
  route_throws : Bool
  publish_throws : Bool
deriving DecidableEq, Repr

/-- Trace of one execution of the try block of the tick body: events complete
in source order until the first collaborator throws; the catch-all wrapping
the whole body then ends the tick at that point and nothing later runs. -/
def tick_trace (b : tick_behavior) : List tick_event :=
  let t0 := [tick_event.rotate_cadence_ev, tick_event.clear_state_ev,
    tick_event.predict_timecode_ev]
  if b.produce_throws then t0 else
  let t1 := t0 ++ [tick_event.produce_ev, tick_event.stage_state_ev,
    tick_event.commit_timecode_ev, tick_event.invoke_listeners_ev]
  if b.mix_throws then t1 else
  let t2 := t1 ++ [tick_event.mix_ev, tick_event.mixer_state_ev]
  if b.consume_throws then t2 else
  let t3 := t2 ++ [tick_event.consume_ev]
  if b.route_throws then t3 else
  let t4 := t3 ++ [tick_event.dispatch_routes_ev, tick_event.output_state_ev]
  if b.publish_throws then t4 else
  t4 ++ [tick_event.publish_state_ev]

/-- Behaviour of a tick in which no collaborator throws. -/
def no_throw : tick_behavior :=
  ⟨false, false, false, false, false⟩

/-- The channel loop: while the abort flag is unset, the tick body runs inside
try/catch and the loop continues; n iterations yield the trace of each tick,
each computed from the behaviour of that tick alone. -/
def run_channel (bs : Nat → tick_behavior) (n : Nat) : List (List tick_event) :=
  (List.range n).map (fun t => tick_trace (bs t))

/-- The nine stages named by the claimed per-tick order, in claimed order. -/
def stage_order : List tick_event :=
  [tick_event.rotate_cadence_ev, tick_event.predict_timecode_ev,
    tick_event.produce_ev, tick_event.commit_timecode_ev,
    tick_event.invoke_listeners_ev, tick_event.mix_ev, tick_event.consume_ev,
    tick_event.dispatch_routes_ev, tick_event.publish_state_ev]

lemma tick_trace_prefix_cases (b : tick_behavior) :
    (tick_trace b) <+: (tick_trace no_throw) ∧
    (b.produce_throws = true →
      tick_trace b = [tick_event.rotate_cadence_ev, tick_event.clear_state_ev,
        tick_event.predict_timecode_ev]) ∧
    (b.produce_throws = false → b.mix_throws = true →
      tick_trace b = [tick_event.rotate_cadence_ev, tick_event.clear_state_ev,
        tick_event.predict_timecode_ev, tick_event.produce_ev,
        tick_event.stage_state_ev, tick_event.commit_timecode_ev,
        tick_event.invoke_listeners_ev]) ∧
    (b.produce_throws = false → b.mix_throws = false →
      b.consume_throws = true →
      tick_trace b = [tick_event.rotate_cadence_ev, tick_event.clear_state_ev,
        tick_event.predict_timecode_ev, tick_event.produce_ev,
        tick_event.stage_state_ev, tick_event.commit_timecode_ev,
        tick_event.invoke_listeners_ev, tick_event.mix_ev,
        tick_event.mixer_state_ev]) ∧
    (b.produce_throws = false → b.mix_throws = false →
      b.consume_throws = false → b.route_throws = true →
      tick_trace b = [tick_event.rotate_cadence_ev, tick_event.clear_state_ev,
        tick_event.predict_timecode_ev, tick_event.produce_ev,
        tick_event.stage_state_ev, tick_event.commit_timecode_ev,
        tick_event.invoke_listeners_ev, tick_event.mix_ev,
        tick_event.mixer_state_ev, tick_event.consume_ev]) ∧
    (b.produce_throws = false → b.mix_throws = false →
      b.consume_throws = false → b.route_throws = false →
      b.publish_throws = true →
      tick_trace b = [tick_event.rotate_cadence_ev, tick_event.clear_state_ev,
        tick_event.predict_timecode_ev, tick_event.produce_ev,
        tick_event.stage_state_ev, tick_event.commit_timecode_ev,
        tick_event.invoke_listeners_ev, tick_event.mix_ev,
        tick_event.mixer_state_ev, tick_event.consume_ev,
        tick_event.dispatch_routes_ev, tick_event.output_state_ev]) := by
  rcases b with ⟨p, m, c, r, pub⟩
  cases p <;> cases m <;> cases c <;> cases r <;> cases pub <;>
    exact ⟨by decide, by decide, by decide, by decide, by decide, by decide⟩

/-- C3: a tick in which no collaborator throws performs the full source-order
event sequence, and restricted to the nine claimed stages that sequence is
exactly rotate cadence, predict timecode, produce, commit timecode, invoke
listeners, mix, consume, dispatch routes, publish state, with none omitted. -/
theorem C3_tick_stage_order (b : tick_behavior) (h : b = no_throw) :
    tick_trace b = [tick_event.rotate_cadence_ev, tick_event.clear_state_ev,
      tick_event.predict_timecode_ev, tick_event.produce_ev,
      tick_event.stage_state_ev, tick_event.commit_timecode_ev,
      tick_event.invoke_listeners_ev, tick_event.mix_ev,
      tick_event.mixer_state_ev, tick_event.consume_ev,
      tick_event.dispatch_routes_ev, tick_event.output_state_ev,
      tick_event.publish_state_ev] ∧
    (tick_trace b).filter (fun e => decide (e ∈ stage_order)) = stage_order := by
  subst h
  exact ⟨by decide, by decide⟩

/-- Witness for C3 at the concrete no-throw behaviour. -/
theorem C3_tick_stage_order_witness :
    (tick_trace no_throw).filter (fun e => decide (e ∈ stage_order)) =
      stage_order :=
  (C3_tick_stage_order no_throw rfl).2

/-- C4: any collaborator exception is caught by the catch-all wrapping the tick
body: the trace of the failing tick is the prefix of the full trace that ends
at the point of failure (each case listed), later stages of that tick are
absent, every tick of the loop still runs with a trace depending only on its
own behaviour, and the loop extends by one tick at a time. -/
theorem C4_tick_failure_contained (bs : Nat → tick_behavior) (n t : Nat)
    (ht : t < n) :
    (run_channel bs n)[t]? = some (tick_trace (bs t)) ∧
    ((tick_trace (bs t)) <+: (tick_trace no_throw) ∧
      ((bs t).produce_throws = true →
        tick_trace (bs t) = [tick_event.rotate_cadence_ev,
          tick_event.clear_state_ev, tick_event.predict_timecode_ev]) ∧
      ((bs t).produce_throws = false → (bs t).mix_throws = true →
        tick_trace (bs t) = [tick_event.rotate_cadence_ev,
          tick_event.clear_state_ev, tick_event.predict_timecode_ev,
          tick_event.produce_ev, tick_event.stage_state_ev,
          tick_event.commit_timecode_ev, tick_event.invoke_listeners_ev])) ∧
    run_channel bs (n + 1) = run_channel bs n ++ [tick_trace (bs n)] := by
  refine ⟨?_, ?_, ?_⟩
  · simp [run_channel, List.getElem?_map, List.getElem?_range, ht]
  · obtain ⟨h1, h2, h3, _, _, _⟩ := tick_trace_prefix_cases (bs t)
    exact ⟨h1, h2, h3⟩
  · simp [run_channel, List.range_succ]

/-- Witness for C4: over a two-tick run whose first tick fails in the mixer,
the failing trace stops after the listeners, and the second tick runs. -/
theorem C4_tick_failure_contained_witness :
    (0 : Nat) < 2 ∧
    ((run_channel (fun t => if t = 0 then ⟨false, true, false, false, false⟩
        else no_throw) 2)[0]? =
      some (tick_trace ⟨false, true, false, false, false⟩)) :=
  ⟨by decide,
    (C4_tick_failure_contained
      (fun t => if t = 0 then ⟨false, true, false, false, false⟩ else no_throw)
      2 0 (by decide)).1⟩

end VideoChannel
